import Mathlib

/-!
Verification of the `tenfoot` launcher core: a shallow embedding of the
multi-store game aggregation layer (`src-tauri/src/launcher_core`, the
store parsers under `src-tauri/src/stores`, and the ownership
reconciliation in `src-tauri/src/lib.rs`), together with theorems about
the embedded definitions.

Modelling conventions:
- Rust `String` is Lean `String`; character-level operations from the
  Rust standard library that the kernel cannot reduce are re-implemented
  structurally on `List Char` (`asciiLowerChar`, `splitOnChar`, ...).
  Rust's `to_lowercase` performs full Unicode folding; the embedding
  folds ASCII letters per character, which agrees with the source on all
  ASCII data (store names, manifest keys).
- `PathBuf` is modelled as `String`, `PathBuf::join` as concatenation
  with a `/` separator, and filesystem probes (`Path::exists`) as an
  explicit `pathExists : String → Bool` parameter.
- Locks are modelled as always acquirable: `RwLock`/`Mutex` poisoning
  requires a panicked thread, which the sequential embedding has no
  counterpart for.  File/database I/O that merely *reads* input is
  modelled by passing the already-read content as an argument; writes
  that can fail are modelled by an explicit success flag.
-/

/-- ASCII lower-casing of one character, as a closed table on the
uppercase letters (kernel-reducible, matches Unicode simple folding on
ASCII input). -/

def asciiLowerChar : Char → Char
  | 'A' => 'a' | 'B' => 'b' | 'C' => 'c' | 'D' => 'd' | 'E' => 'e'
  | 'F' => 'f' | 'G' => 'g' | 'H' => 'h' | 'I' => 'i' | 'J' => 'j'
  | 'K' => 'k' | 'L' => 'l' | 'M' => 'm' | 'N' => 'n' | 'O' => 'o'
  | 'P' => 'p' | 'Q' => 'q' | 'R' => 'r' | 'S' => 's' | 'T' => 't'
  | 'U' => 'u' | 'V' => 'v' | 'W' => 'w' | 'X' => 'x' | 'Y' => 'y'
  | 'Z' => 'z'
  | c => c

/-- Lower-casing of a whole string (model of Rust `str::to_lowercase`). -/

def asciiLower (s : String) : String := ⟨s.data.map asciiLowerChar⟩

/-- `StoreType` from `launcher_core/game.rs`. -/

inductive StoreType
  | steam
  | epic
  | gog
deriving DecidableEq, Repr

/-- The `Display` implementation for `StoreType`. -/

def StoreType.display : StoreType → String
  | .steam => "Steam"
  | .epic => "Epic"
  | .gog => "GOG"

/-- The unified `Game` record from `launcher_core/game.rs`. -/

structure Game where
  id : String
  name : String
  store : StoreType
  installed : Bool
  install_path : Option String := none
  executable : Option String := none
  playtime_minutes : Option Nat := none
  last_played : Option Nat := none
  cover_url : Option String := none
  hero_url : Option String := none
  icon_url : Option String := none
  size_bytes : Option Nat := none
  version : Option String := none
  installed_at : Option Nat := none
deriving DecidableEq, Repr

/-- `Game::new`: minimal record, not installed, all optionals `None`. -/

def Game.new (id name : String) (store : StoreType) : Game :=
  { id := id, name := name, store := store, installed := false }

/-- `Game::unique_key`: lowercased store display name, `:`, then the id. -/

def Game.unique_key (g : Game) : String :=
  asciiLower g.store.display ++ ":" ++ g.id

/-- `LauncherError` from `launcher_core/error.rs`. -/

inductive LauncherError
  | StoreNotFound (msg : String)
  | GameNotFound (msg : String)
  | ParseError (msg : String)
  | IoError (msg : String)
  | HttpError (msg : String)
  | JsonError (msg : String)
  | DatabaseError (msg : String)
  | LaunchError (msg : String)
  | AuthRequired (msg : String)
  | PlatformNotSupported (msg : String)
  | NetworkError (msg : String)
  | ConfigError (msg : String)
deriving DecidableEq, Repr

/-- The spec's "not-found" error category (section 7 of the design
notes): unknown store id or unknown game key. -/

def LauncherError.isNotFound : LauncherError → Bool
  | .StoreNotFound _ => true
  | .GameNotFound _ => true
  | _ => false

/-- `GameLibrary::find_game`: first cached game whose unique key equals
the argument (the cache is modelled as the list it guards). -/

def find_game (games : List Game) (unique_key : String) : Option Game :=
  games.find? (fun g => g.unique_key == unique_key)

/-- Lexicographic comparison of character lists by code point: the order
Rust's `String::cmp` induces (UTF-8 byte order coincides with code-point
order). -/

def lexLe : List Char → List Char → Bool
  | [], _ => true
  | _ :: _, [] => false
  | a :: as, b :: bs =>
    if a.toNat < b.toNat then true
    else if b.toNat < a.toNat then false
    else lexLe as bs

/-- The sort key of `GameLibrary::refresh_all`: the lowercased display
name (`a.name.to_lowercase()`), as a character list. -/

def nameKey (g : Game) : List Char := g.name.data.map asciiLowerChar

/-- The comparator of `refresh_all`'s `sort_by`: lowercased names in
code-point order. -/

def gameLe (a b : Game) : Bool := lexLe (nameKey a) (nameKey b)

/-- Stable insertion placing `g` before the first element it compares
less-or-equal to; folding it over a list reproduces the output of any
stable sort with the same comparator, in particular Rust's
`slice::sort_by`. -/

def insertSorted (g : Game) : List Game → List Game
  | [] => [g]
  | h :: t => if gameLe g h then g :: h :: t else h :: insertSorted g t

/-- The sorting step of `refresh_all` (stable sort by `gameLe`). -/

def sortGames : List Game → List Game
  | [] => []
  | g :: t => insertSorted g (sortGames t)

/-- One registered store adapter, as `refresh_all` observes it:
its id, its availability snapshot, and the outcome of
`get_installed_games` (error payload kept abstract as its message). -/

structure StoreModel where
  store_id : String
  available : Bool
  scan : Except String (List Game)

/-- What one iteration of the `refresh_all` loop appends: nothing for an
unavailable adapter, nothing for a failed scan (the error is only
logged), the scanned games otherwise. -/

def storeContribution (s : StoreModel) : List Game :=
  if s.available then
    match s.scan with
    | .ok gs => gs
    | .error _ => []
  else []

/-- The concatenation the `refresh_all` loop accumulates over the
registered stores (in registry iteration order). -/

def gather : List StoreModel → List Game
  | [] => []
  | s :: rest => storeContribution s ++ gather rest

/-- `GameLibrary::refresh_all`: accumulate available adapters' scans,
sort by lowercased name, then replace the cached catalog; the only
failure is the cache write (modelled by `cache_write_ok`), reported as
the `ParseError` the source constructs for a failed write lock. -/

def refresh_all (stores : List StoreModel) (cache_write_ok : Bool) :
    Except LauncherError (List Game) :=
  let all_games := sortGames (gather stores)
  if cache_write_ok then .ok all_games
  else .error (.ParseError "Failed to acquire write lock")

/-- Lookup in the `HashMap<String, Game>` the two sync paths build from
the freshly refreshed catalog: only games of the given store are
inserted, keyed by platform-scoped id, a later duplicate overwriting an
earlier one (hence the reversed first-match search). -/
def installedMapLookup (installed_games : List Game) (store : StoreType)
    (id : String) : Option Game :=
  ((installed_games.filter (fun g => g.store == store)).reverse).find?
    (fun g => g.id == id)

/-- `s.starts_with("App ")`: the generic placeholder test of the Steam
merge. -/
def startsWithApp (s : String) : Bool :=
  match s.data with
  | 'A' :: 'p' :: 'p' :: ' ' :: _ => true
  | _ => false

/-- The per-game merge step of `sync_steam_library` (src/lib.rs): on a
local match, mark installed and copy install path, executable and size
from the local entry, preferring the local name when the remote name is
an `App ` placeholder; otherwise leave the record unchanged. -/
def syncMergeGame (m : String → Option Game) (g : Game) : Game :=
  match m g.id with
  | some inst =>
    let g1 : Game := { g with
      installed := true
      install_path := inst.install_path
      executable := inst.executable
      size_bytes := inst.size_bytes }
    if startsWithApp g1.name then { g1 with name := inst.name } else g1
  | none => g

/-- The per-game merge step of `get_steam_games_cached` (src/lib.rs): on
a local match, mark installed and copy install path and size (the
executable is not copied), preferring the local name for an `App `
placeholder; on a miss, force `installed := false` (remaining fields are
kept as cached). -/
def cachedMergeGame (m : String → Option Game) (g : Game) : Game :=
  match m g.id with
  | some inst =>
    let g1 : Game := { g with
      installed := true
      install_path := inst.install_path
      size_bytes := inst.size_bytes }
    if startsWithApp g1.name then { g1 with name := inst.name } else g1
  | none => { g with installed := false }

/-- The merge loop of `sync_steam_library` over the remote owned list. -/
def sync_steam_merge (installed_games owned_games : List Game) : List Game :=
  owned_games.map (syncMergeGame (installedMapLookup installed_games .steam))

/-- The merge loop of `get_steam_games_cached` over the cached owned
list (the non-empty-cache branch). -/
def cached_steam_merge (installed_games cached_owned : List Game) : List Game :=
  cached_owned.map (cachedMergeGame (installedMapLookup installed_games .steam))

/-- One entry of the Steam `GetOwnedGames` response
(`stores/steam/api.rs`), after JSON decoding. -/
structure OwnedGame where
  appid : Nat
  name : Option String := none
  playtime_forever : Option Nat := none
  rtime_last_played : Option Nat := none
  img_icon_url : Option String := none
deriving DecidableEq, Repr

/-- The per-entry mapping of `SteamApi::get_owned_games`: id from the
appid, name falling back to `App {appid}` spelled without braces, never
installed, no install fields, CDN artwork URLs. -/
def ownedGameToGame (g : OwnedGame) : Game :=
  let name := g.name.getD ("App " ++ toString g.appid)
  { Game.new (toString g.appid) name .steam with
    installed := false
    playtime_minutes := g.playtime_forever
    last_played := g.rtime_last_played
    cover_url := some ("https://steamcdn-a.akamaihd.net/steam/apps/"
      ++ toString g.appid ++ "/library_600x900.jpg")
    hero_url := some ("https://steamcdn-a.akamaihd.net/steam/apps/"
      ++ toString g.appid ++ "/library_hero.jpg")
    icon_url := some ("https://steamcdn-a.akamaihd.net/steam/apps/"
      ++ toString g.appid ++ "/header.jpg") }

/-- `SteamApi::get_owned_games` on a decoded response body: the games
field may be absent (`unwrap_or_default`). -/
def get_owned_games (response_games : Option (List OwnedGame)) : List Game :=
  (response_games.getD []).map ownedGameToGame

/-- All installation-only fields are unset. -/
def noInstallFields (g : Game) : Prop :=
  g.install_path = none ∧ g.executable = none ∧ g.size_bytes = none
    ∧ g.installed_at = none

/-- The data-model invariant of spec section 3: a non-installed game has
no installation-only fields. -/
def installInvariant (g : Game) : Prop :=
  g.installed = false → noInstallFields g

/-- `splitn(2, ':')` on a key: `none` when there is no colon, otherwise
the part before the first colon and everything after it. -/
def splitFirstColon : List Char → Option (List Char × List Char)
  | [] => none
  | c :: rest =>
    if c = ':' then some ([], rest)
    else (splitFirstColon rest).map (fun p => (c :: p.1, p.2))

/-- `GameLibrary::launch_game`: split the key on the first colon
(`GameNotFound` if there is none), look the store up in the registry
(`StoreNotFound` if absent), else delegate to the adapter's launch. -/
def launch_game (registry : String → Option (String → Except LauncherError Unit))
    (unique_key : String) : Except LauncherError Unit :=
  match splitFirstColon unique_key.data with
  | none => .error (.GameNotFound unique_key)
  | some (sid, gid) =>
    match registry ⟨sid⟩ with
    | none => .error (.StoreNotFound ⟨sid⟩)
    | some launch => launch ⟨gid⟩

/-- ASCII whitespace as Rust `str::trim` sees it on manifest data. -/
def isVdfWs (c : Char) : Bool :=
  c = ' ' || c = '\t' || c = '\r' || c = '\n'

/-- Trim whitespace from both ends of a character list. -/
def trimChars (l : List Char) : List Char :=
  ((l.dropWhile isVdfWs).reverse.dropWhile isVdfWs).reverse

/-- Split a character list at every occurrence of `sep`, keeping empty
pieces (the semantics of Rust `str::split(char)`). -/
def splitOnChar (sep : Char) : List Char → List (List Char)
  | [] => [[]]
  | c :: rest =>
    if c = sep then [] :: splitOnChar sep rest
    else
      match splitOnChar sep rest with
      | [] => [[c]]
      | h :: t => (c :: h) :: t

/-- One iteration of `parse_vdf_to_map` (`stores/steam/parser.rs`): trim
the line, skip empties and lone braces, split on double quotes, and when
at least four pieces result take piece 1 as the lowercased key and piece
3 as the value. -/
def vdfLineEntry (line : List Char) : Option (String × String) :=
  let t := trimChars line
  if t.isEmpty then none
  else if t = ['\x7b'] then none
  else if t = ['\x7d'] then none
  else
    let parts := splitOnChar '\x22' t
    if 4 ≤ parts.length then
      some (⟨(parts.getD 1 []).map asciiLowerChar⟩, ⟨parts.getD 3 []⟩)
    else none

/-- The key/value pairs `parse_vdf_to_map` inserts, in line order. -/
def vdfEntries (content : String) : List (String × String) :=
  (splitOnChar '\n' content.data).filterMap vdfLineEntry

/-- `map.get(k)` on the parsed VDF map: the `HashMap` keeps the last
insertion for a key, hence the first match in the reversed entry list. -/
def vdfGet (content : String) (k : String) : Option String :=
  ((vdfEntries content).reverse.find? (fun p => p.1 == k)).map (fun p => p.2)

/-- Some line of the manifest defines key `k` (keys are lowercased by
the parser, so matching is case-insensitive in the raw file). -/
def vdfHasKey (content : String) (k : String) : Bool :=
  (vdfEntries content).any (fun p => p.1 == k)

/-- Rust `str::parse::<u64>` digit loop (overflow is not modelled; the
claims never exercise values near `u64::MAX`). -/
def digitsToNatAux : Nat → List Char → Option Nat
  | acc, [] => some acc
  | acc, c :: rest =>
    if 48 ≤ c.toNat && c.toNat ≤ 57 then
      digitsToNatAux (acc * 10 + (c.toNat - 48)) rest
    else none

/-- Rust `str::parse::<u64>`: optional leading plus sign, then at least
one digit. -/
def parseU64 (s : String) : Option Nat :=
  match s.data with
  | [] => none
  | '+' :: [] => none
  | '+' :: rest => digitsToNatAux 0 rest
  | l => digitsToNatAux 0 l

/-- `parse_acf_file` (`stores/steam/parser.rs`) on the already-read file
content; `manifestDir` stands for `path.parent()` and `pathExists` for
`Path::exists`.  Fails with a `ParseError` when `appid` or `name` is
missing; `installdir` and `sizeondisk` are optional refinements. -/
def parse_acf_file (pathExists : String → Bool) (manifestDir : String)
    (content : String) : Except LauncherError Game :=
  match vdfGet content "appid" with
  | none => .error (.ParseError "Missing appid in manifest")
  | some app_id =>
    match vdfGet content "name" with
    | none => .error (.ParseError "Missing name in manifest")
    | some name =>
      let install_path :=
        match vdfGet content "installdir" with
        | some install_dir =>
          let p := manifestDir ++ "/common/" ++ install_dir
          if pathExists p then some p else none
        | none => none
      let size_bytes :=
        match vdfGet content "sizeondisk" with
        | some size_str => parseU64 size_str
        | none => none
      .ok { Game.new app_id name .steam with
        installed := true
        install_path := install_path
        size_bytes := size_bytes
        cover_url := some ("https://steamcdn-a.akamaihd.net/steam/apps/"
          ++ app_id ++ "/library_600x900.jpg")
        hero_url := some ("https://steamcdn-a.akamaihd.net/steam/apps/"
          ++ app_id ++ "/library_hero.jpg")
        icon_url := some ("https://steamcdn-a.akamaihd.net/steam/apps/"
          ++ app_id ++ "/header.jpg") }

/-- The result is a per-file parse failure (`LauncherError::ParseError`). -/
def isParseFailure {α : Type} : Except LauncherError α → Bool
  | .error (.ParseError _) => true
  | _ => false

/-- The manifest loop of `SteamStore::scan_installed_games`: parse every
`appmanifest_*.acf` content, keep the successes, skip the failures. -/
def scan_steam_contents (pathExists : String → Bool) (manifestDir : String)
    (contents : List String) : List Game :=
  contents.filterMap (fun c => (parse_acf_file pathExists manifestDir c).toOption)

/-- A decoded Epic `.item` manifest (`stores/epic/manifest.rs`); the
required JSON keys are the non-optional fields. -/
structure EpicManifest where
  app_name : String
  display_name : String
  install_location : String
  launch_executable : String
  app_version_string : Option String := none
  is_incomplete_install : Bool := false
  can_run_offline : Bool := false
  install_size : Option Nat := none
deriving DecidableEq, Repr

/-- `parse_manifest_file` after the file read: JSON decoding failure is
a `JsonError`; a manifest flagged incomplete is rejected with a
`ParseError` before any field is used; otherwise the game is built, the
executable only being resolved when the install location exists. -/
def parse_manifest_file (pathExists : String → Bool)
    (decoded : Except String EpicManifest) : Except LauncherError Game :=
  match decoded with
  | .error e => .error (.JsonError e)
  | .ok manifest =>
    if manifest.is_incomplete_install then
      .error (.ParseError "Game installation is incomplete")
    else
      let executable :=
        if pathExists manifest.install_location then
          let exe_path := manifest.install_location ++ "/" ++ manifest.launch_executable
          if pathExists exe_path then some exe_path else none
        else none
      .ok { Game.new manifest.app_name manifest.display_name .epic with
        installed := true
        install_path := some manifest.install_location
        executable := executable
        version := manifest.app_version_string
        size_bytes := manifest.install_size }

/-- The manifest loop of `EpicStore::scan_installed_games`: parse every
`.item` content, keep the successes, log-and-skip the failures. -/
def scan_epic_manifests (pathExists : String → Bool)
    (decoded : List (Except String EpicManifest)) : List Game :=
  decoded.filterMap (fun d => (parse_manifest_file pathExists d).toOption)

/-- The GOG Galaxy database (`stores/gog/database.rs`) as the queries
observe it: `none` for a missing table, title/install-path lookups as
functions of the query key.  Statement preparation errors on a healthy
database are outside the model. -/
structure GogDb where
  installed_base_products : Option (List String)
  library_releases : Option (List (String × String))
  game_piece_title : String → Option String
  product_config : Option (String → Option String)

/-- `get_game_title`: the GamePieces title for `gog_{id}` (braces stand
for splicing), else the LibraryReleases title for the same key. -/
def get_game_title (db : GogDb) (product_id : String) : Option String :=
  match db.game_piece_title ("gog_" ++ product_id) with
  | some title => some title
  | none =>
    match db.library_releases with
    | some rows => rows.lookup ("gog_" ++ product_id)
    | none => none

/-- `get_install_path`: `None` when the ProductConfiguration table is
missing, else its lookup by product id. -/
def get_install_path (db : GogDb) (product_id : String) : Option String :=
  match db.product_config with
  | none => none
  | some lookup => lookup product_id

/-- `get_game_details`: title with the `GOG Game {id}` fallback (braces
stand for splicing), always installed, install path when available. -/
def get_game_details (db : GogDb) (product_id : String) : Game :=
  let title := (get_game_title db product_id).getD ("GOG Game " ++ product_id)
  let g := { Game.new product_id title .gog with installed := true }
  match get_install_path db product_id with
  | some p => { g with install_path := some p }
  | none => g

/-- `query_installed_base_products`: empty when the table is missing,
else one game per product id. -/
def query_installed_base_products (db : GogDb) : List Game :=
  match db.installed_base_products with
  | none => []
  | some product_ids => product_ids.map (get_game_details db)

/-- SQLite evaluation of `releaseKey LIKE 'gog_%'`: `g`, `o`, `g`
matched ASCII-case-insensitively, `_` matching one arbitrary character,
`%` matching any tail. -/
def matchesGogLikePattern (s : String) : Bool :=
  match s.data with
  | a :: b :: c :: _ :: _ =>
    asciiLowerChar a = 'g' && asciiLowerChar b = 'o' && asciiLowerChar c = 'g'
  | _ => false

/-- `release_key.strip_prefix("gog_").unwrap_or(&release_key)`: drop a
literal leading `gog_`, otherwise keep the key unchanged. -/
def gogStripKey (release_key : String) : String :=
  match release_key.data with
  | 'g' :: 'o' :: 'g' :: '_' :: rest => ⟨rest⟩
  | _ => release_key

/-- The row mapping of `query_library_releases`. -/
def releaseToGame (row : String × String) : Game :=
  { Game.new (gogStripKey row.1) row.2 .gog with installed := true }

/-- `query_library_releases`: empty when the table is missing, else the
LIKE-filtered rows mapped to installed games. -/
def query_library_releases (db : GogDb) : List Game :=
  match db.library_releases with
  | none => []
  | some rows => (rows.filter (fun r => matchesGogLikePattern r.1)).map releaseToGame

/-- `query_installed_games`: primary InstalledBaseProducts strategy,
extended by the LibraryReleases fallback only when it yielded nothing. -/
def query_installed_games (db : GogDb) : List Game :=
  let games := query_installed_base_products db
  if games.isEmpty then games ++ query_library_releases db else games


instance {e a : Type} [DecidableEq e] [DecidableEq a] : DecidableEq (Except e a) :=
  fun x y =>
    match x, y with
    | .ok u, .ok v =>
      if h : u = v then .isTrue (by rw [h]) else .isFalse (by intro hc; cases hc; exact h rfl)
    | .error u, .error v =>
      if h : u = v then .isTrue (by rw [h]) else .isFalse (by intro hc; cases hc; exact h rfl)
    | .ok _, .error _ => .isFalse (by intro hc; cases hc)
    | .error _, .ok _ => .isFalse (by intro hc; cases hc)

theorem find_game_mem_of_eq_some {games : List Game} {k : String} {g : Game}
    (h : find_game games k = some g) : g ∈ games ∧ g.unique_key = k := by
  have hm := List.mem_of_find?_eq_some h
  have hp := List.find?_some h
  exact ⟨hm, by simpa using hp⟩

theorem find_game_eq_none_iff (games : List Game) (k : String) :
    find_game games k = none ↔ ∀ g ∈ games, g.unique_key ≠ k := by
  unfold find_game
  rw [List.find?_eq_none]
  constructor
  · intro h g hg
    have := h g hg
    simpa using this
  · intro h g hg
    simpa using h g hg

/-- C1: `unique_key` is the lowercased store name, a colon, and the id
(so store `Gog` with id `"xyz"` gives `"gog:xyz"`); `find_game` returns
a game exactly when some cached game carries that key, the returned game
is a cached game carrying the key, and a miss is `none`, not an error. -/
theorem claim_C1_unique_key_find_game (games : List Game) (k : String) (g : Game) :
    (g.unique_key = asciiLower g.store.display ++ ":" ++ g.id)
    ∧ ((Game.new "xyz" "Witch" .gog).unique_key = "gog:xyz")
    ∧ (find_game games k = some g → g ∈ games ∧ g.unique_key = k)
    ∧ ((∃ g' ∈ games, g'.unique_key = k) → ∃ g', find_game games k = some g')
    ∧ (find_game games k = none ↔ ∀ g' ∈ games, g'.unique_key ≠ k) := by
  refine ⟨rfl, by decide, fun h => find_game_mem_of_eq_some h, ?_, find_game_eq_none_iff games k⟩
  intro ⟨g', hg', hk⟩
  rcases h : find_game games k with _ | g''
  · exact absurd hk ((find_game_eq_none_iff games k).mp h g' hg')
  · exact ⟨g'', rfl⟩

/-- Witness for C1 at a concrete one-element cache. -/
theorem claim_C1_witness :
    find_game [Game.new "xyz" "Witch" .gog] "gog:xyz" = some (Game.new "xyz" "Witch" .gog)
    ∧ (Game.new "xyz" "Witch" .gog ∈ [Game.new "xyz" "Witch" .gog]
        ∧ (Game.new "xyz" "Witch" .gog).unique_key = "gog:xyz") := by
  have h : find_game [Game.new "xyz" "Witch" .gog] "gog:xyz"
      = some (Game.new "xyz" "Witch" .gog) := by decide
  exact ⟨h, (claim_C1_unique_key_find_game
    [Game.new "xyz" "Witch" .gog] "gog:xyz" (Game.new "xyz" "Witch" .gog)).2.2.1 h⟩

theorem lexLe_refl (l : List Char) : lexLe l l = true := by
  induction l with
  | nil => rfl
  | cons a as ih => simp [lexLe, ih]

theorem lexLe_total (a b : List Char) : lexLe a b = true ∨ lexLe b a = true := by
  induction a generalizing b with
  | nil => exact Or.inl rfl
  | cons x xs ih =>
    cases b with
    | nil => exact Or.inr rfl
    | cons y ys =>
      by_cases hxy : x.toNat < y.toNat
      · left; simp [lexLe, hxy]
      · by_cases hyx : y.toNat < x.toNat
        · right; simp [lexLe, hyx]
        · rcases ih ys with h | h
          · left; simp [lexLe, hxy, hyx, h]
          · right; simp [lexLe, hxy, hyx, h]

theorem lexLe_trans {a b c : List Char} (hab : lexLe a b = true)
    (hbc : lexLe b c = true) : lexLe a c = true := by
  induction a generalizing b c with
  | nil => rfl
  | cons x xs ih =>
    cases b with
    | nil => simp [lexLe] at hab
    | cons y ys =>
      cases c with
      | nil => simp [lexLe] at hbc
      | cons z zs =>
        simp only [lexLe] at hab hbc ⊢
        by_cases hxy : x.toNat < y.toNat
        · by_cases hyz : y.toNat < z.toNat
          · simp [Nat.lt_trans hxy hyz]
          · by_cases hzy : z.toNat < y.toNat
            · simp [hyz, hzy] at hbc
            · have : y.toNat = z.toNat := Nat.le_antisymm (Nat.le_of_not_lt hzy) (Nat.le_of_not_lt hyz)
              simp [this ▸ hxy]
        · by_cases hyx : y.toNat < x.toNat
          · simp [hxy, hyx] at hab
          · have hxyeq : x.toNat = y.toNat :=
              Nat.le_antisymm (Nat.le_of_not_lt hyx) (Nat.le_of_not_lt hxy)
            by_cases hyz : y.toNat < z.toNat
            · simp [hxyeq ▸ hyz]
            · by_cases hzy : z.toNat < y.toNat
              · simp [hyz, hzy] at hbc
              · have hyzeq : y.toNat = z.toNat :=
                  Nat.le_antisymm (Nat.le_of_not_lt hzy) (Nat.le_of_not_lt hyz)
                have hxz : ¬ x.toNat < z.toNat := by omega
                have hzx : ¬ z.toNat < x.toNat := by omega
                rw [if_neg hxy, if_neg hyx] at hab
                rw [if_neg hyz, if_neg hzy] at hbc
                rw [if_neg hxz, if_neg hzx]
                exact ih hab hbc

theorem lexLe_antisymm_ne {a b : List Char} (h : lexLe a b = false) : a ≠ b := by
  intro he
  subst he
  simp [lexLe_refl] at h

theorem insertSorted_perm (g : Game) (l : List Game) :
    (insertSorted g l).Perm (g :: l) := by
  induction l with
  | nil => exact List.Perm.refl _
  | cons h t ih =>
    by_cases hc : gameLe g h = true
    · simp [insertSorted, hc]
    · simp only [insertSorted, hc, if_false, Bool.false_eq_true]
      exact ((ih.cons h).trans (List.Perm.swap g h t))

theorem sortGames_perm (l : List Game) : (sortGames l).Perm l := by
  induction l with
  | nil => exact List.Perm.refl _
  | cons g t ih => exact (insertSorted_perm g (sortGames t)).trans (ih.cons g)

theorem mem_insertSorted {x g : Game} {l : List Game}
    (h : x ∈ insertSorted g l) : x = g ∨ x ∈ l := by
  have := (insertSorted_perm g l).mem_iff.mp h
  simpa using this

theorem insertSorted_pairwise {g : Game} {l : List Game}
    (h : l.Pairwise (fun a b => gameLe a b = true)) :
    (insertSorted g l).Pairwise (fun a b => gameLe a b = true) := by
  induction l with
  | nil => simp [insertSorted]
  | cons x t ih =>
    rcases List.pairwise_cons.mp h with ⟨hx, ht⟩
    by_cases hc : gameLe g x = true
    · simp only [insertSorted, hc, if_true]
      refine List.pairwise_cons.mpr ⟨?_, h⟩
      intro b hb
      rcases List.mem_cons.mp hb with hbx | hb
      · subst hbx
        exact hc
      · exact lexLe_trans hc (hx b hb)
    · simp only [insertSorted, hc, if_false, Bool.false_eq_true]
      refine List.pairwise_cons.mpr ⟨?_, ih ht⟩
      intro b hb
      rcases mem_insertSorted hb with hbg | hb
      · rw [hbg]
        rcases lexLe_total (nameKey g) (nameKey x) with h1 | h1
        · exact absurd h1 hc
        · exact h1
      · exact hx b hb

theorem sortGames_pairwise (l : List Game) :
    (sortGames l).Pairwise (fun a b => gameLe a b = true) := by
  induction l with
  | nil => simp [sortGames]
  | cons g t ih => exact insertSorted_pairwise ih

theorem filter_insertSorted_pos {g : Game} {k : List Char} (l : List Game)
    (hk : nameKey g = k) :
    (insertSorted g l).filter (fun x => nameKey x == k)
      = g :: l.filter (fun x => nameKey x == k) := by
  induction l with
  | nil => simp [insertSorted, hk]
  | cons x t ih =>
    by_cases hc : gameLe g x = true
    · simp [insertSorted, hc, List.filter_cons, hk]
    · have hne : nameKey x ≠ k := by
        intro he
        have : nameKey g ≠ nameKey x := lexLe_antisymm_ne (by simpa [gameLe] using hc)
        exact this (hk.trans he.symm)
      have hbx : (nameKey x == k) = false := by simp [hne]
      simp only [insertSorted, hc, if_false, Bool.false_eq_true, List.filter_cons, hbx]
      simpa [hbx] using ih

theorem filter_insertSorted_neg {g : Game} {k : List Char} (l : List Game)
    (hk : nameKey g ≠ k) :
    (insertSorted g l).filter (fun x => nameKey x == k)
      = l.filter (fun x => nameKey x == k) := by
  induction l with
  | nil => simp [insertSorted, hk]
  | cons x t ih =>
    by_cases hc : gameLe g x = true
    · simp [insertSorted, hc, List.filter_cons, hk]
    · simp only [insertSorted, hc, if_false, Bool.false_eq_true, List.filter_cons]
      by_cases hx : nameKey x = k
      · simp [hx, ih]
      · simp [hx, ih]

theorem sortGames_filter (l : List Game) (k : List Char) :
    (sortGames l).filter (fun x => nameKey x == k)
      = l.filter (fun x => nameKey x == k) := by
  induction l with
  | nil => rfl
  | cons g t ih =>
    by_cases hk : nameKey g = k
    · rw [sortGames, filter_insertSorted_pos _ hk, ih]
      simp [List.filter_cons, hk]
    · rw [sortGames, filter_insertSorted_neg _ hk, ih]
      simp [List.filter_cons, hk]

theorem gather_append (a b : List StoreModel) :
    gather (a ++ b) = gather a ++ gather b := by
  induction a with
  | nil => rfl
  | cons s t ih => simp [gather, ih]

theorem storeContribution_error {s : StoreModel} (h : ∃ e, s.scan = Except.error e) :
    storeContribution s = [] := by
  rcases h with ⟨e, he⟩
  unfold storeContribution
  rw [he]
  cases s.available <;> simp

theorem storeContribution_unavailable {s : StoreModel} (h : s.available = false) :
    storeContribution s = [] := by
  unfold storeContribution
  rw [h]
  simp

/-- C2: `refresh_all` treats a failed per-adapter scan exactly like an
empty scan (other adapters' games are unaffected), skips unavailable
adapters, succeeds whenever the cache write succeeds, and returns an
error exactly when the cache cannot be written. -/
theorem claim_C2_refresh_all_error_isolation
    (pre post : List StoreModel) (s : StoreModel) (w : Bool) :
    ((∃ e, s.scan = Except.error e) →
        refresh_all (pre ++ s :: post) w
          = refresh_all (pre ++ { s with scan := Except.ok [] } :: post) w)
    ∧ (s.available = false →
        refresh_all (pre ++ s :: post) w = refresh_all (pre ++ post) w)
    ∧ (∀ stores : List StoreModel,
        refresh_all stores true = Except.ok (sortGames (gather stores)))
    ∧ (∀ stores : List StoreModel,
        (∃ e, refresh_all stores w = Except.error e) ↔ w = false) := by
  refine ⟨?_, ?_, fun _ => rfl, ?_⟩
  · intro he
    have h1 : storeContribution s = [] := storeContribution_error he
    have h2 : storeContribution { s with scan := Except.ok [] } = [] := by
      unfold storeContribution
      cases hav : s.available <;> simp [hav]
    unfold refresh_all
    rw [gather_append, gather_append]
    show (if w then Except.ok (sortGames (gather pre ++ gather (s :: post))) else _)
      = (if w then Except.ok (sortGames (gather pre ++ gather ({ s with scan := Except.ok [] } :: post))) else _)
    rw [show gather (s :: post) = storeContribution s ++ gather post from rfl,
      show gather ({ s with scan := Except.ok [] } :: post)
        = storeContribution { s with scan := Except.ok [] } ++ gather post from rfl,
      h1, h2]
  · intro hav
    unfold refresh_all
    rw [gather_append, gather_append,
      show gather (s :: post) = storeContribution s ++ gather post from rfl,
      storeContribution_unavailable hav]
    simp
  · intro stores
    cases w <;> simp [refresh_all]

/-- Witness for C2: a failing Steam scan next to a healthy Epic scan; the
result equals the one with the failing scan replaced by an empty scan,
an unavailable adapter drops out, and the refresh succeeds. -/
theorem claim_C2_witness :
    refresh_all [⟨"steam", true, Except.error "scan failed"⟩,
        ⟨"epic", true, Except.ok [Game.new "a" "A" .epic]⟩] true
      = refresh_all [⟨"steam", true, Except.ok []⟩,
          ⟨"epic", true, Except.ok [Game.new "a" "A" .epic]⟩] true
    ∧ refresh_all [⟨"gog", false, Except.ok [Game.new "b" "B" .gog]⟩] true
      = refresh_all [] true
    ∧ refresh_all [⟨"steam", true, Except.error "scan failed"⟩] true
      = Except.ok (sortGames (gather [⟨"steam", true, Except.error "scan failed"⟩])) := by
  refine ⟨?_, ?_, ?_⟩
  · exact (claim_C2_refresh_all_error_isolation []
      [⟨"epic", true, Except.ok [Game.new "a" "A" .epic]⟩]
      ⟨"steam", true, Except.error "scan failed"⟩ true).1 ⟨"scan failed", rfl⟩
  · exact (claim_C2_refresh_all_error_isolation [] []
      ⟨"gog", false, Except.ok [Game.new "b" "B" .gog]⟩ true).2.1 rfl
  · exact (claim_C2_refresh_all_error_isolation [] []
      ⟨"steam", true, Except.error "scan failed"⟩ true).2.2.1 _

/-- C3: a successful `refresh_all` returns a permutation of the
concatenated discovery sequence, nondecreasing under the lowercased-name
comparator, and games with equal lowercased names keep their relative
discovery order (stability of Rust's `sort_by`). -/
theorem claim_C3_refresh_all_sorted_stable
    (stores : List StoreModel) (w : Bool) (gs : List Game)
    (h : refresh_all stores w = Except.ok gs) :
    gs.Pairwise (fun a b => gameLe a b = true)
    ∧ gs.Perm (gather stores)
    ∧ ∀ k, gs.filter (fun g => nameKey g == k)
        = (gather stores).filter (fun g => nameKey g == k) := by
  have hgs : gs = sortGames (gather stores) := by
    cases w
    · simp [refresh_all] at h
    · simpa [refresh_all] using h.symm
  subst hgs
  exact ⟨sortGames_pairwise _, sortGames_perm _, fun k => sortGames_filter _ k⟩

/-- Witness for C3: games named `Zelda`, `Apple`, `apple` (discovery
order) sort to `Apple`, `apple`, `Zelda` — ascending case-insensitively,
with `Apple` kept before `apple`. -/
theorem claim_C3_witness :
    refresh_all [⟨"steam", true, Except.ok [Game.new "1" "Zelda" .steam,
          Game.new "2" "Apple" .steam]⟩,
        ⟨"epic", true, Except.ok [Game.new "3" "apple" .epic]⟩] true
      = Except.ok [Game.new "2" "Apple" .steam, Game.new "3" "apple" .epic,
          Game.new "1" "Zelda" .steam]
    ∧ [Game.new "2" "Apple" .steam, Game.new "3" "apple" .epic,
        Game.new "1" "Zelda" .steam].Pairwise (fun a b => gameLe a b = true)
    ∧ [Game.new "2" "Apple" .steam, Game.new "3" "apple" .epic,
          Game.new "1" "Zelda" .steam].filter (fun g => nameKey g == "apple".data)
        = (gather [⟨"steam", true, Except.ok [Game.new "1" "Zelda" .steam,
              Game.new "2" "Apple" .steam]⟩,
            ⟨"epic", true, Except.ok [Game.new "3" "apple" .epic]⟩]).filter
            (fun g => nameKey g == "apple".data) := by
  have h : refresh_all [⟨"steam", true, Except.ok [Game.new "1" "Zelda" .steam,
          Game.new "2" "Apple" .steam]⟩,
        ⟨"epic", true, Except.ok [Game.new "3" "apple" .epic]⟩] true
      = Except.ok [Game.new "2" "Apple" .steam, Game.new "3" "apple" .epic,
          Game.new "1" "Zelda" .steam] := by rfl
  have hc := claim_C3_refresh_all_sorted_stable _ true _ h
  exact ⟨h, hc.1, hc.2.2 "apple".data⟩

/-- C4 is refuted at a concrete input: on a matching installed entry
carrying an executable, the sync path copies the executable while the
cached path leaves the cached (here absent) executable in place. -/
theorem claim_C4_counterexample :
    cached_steam_merge
        [{ Game.new "440" "Team Fortress 2" .steam with
            installed := true
            install_path := some "/lib/common/TF2"
            executable := some "/lib/common/TF2/hl2.sh"
            size_bytes := some 9 }]
        [Game.new "440" "Team Fortress 2" .steam]
      ≠ sync_steam_merge
        [{ Game.new "440" "Team Fortress 2" .steam with
            installed := true
            install_path := some "/lib/common/TF2"
            executable := some "/lib/common/TF2/hl2.sh"
            size_bytes := some 9 }]
        [Game.new "440" "Team Fortress 2" .steam] := by decide

/-- C4 (amended): on the same inputs the cached read path computes the
same reconciliation as the network sync path except for the executable
field: on a match both set `installed := true`, copy install path and
size from the local entry and prefer the local name when the remote
name starts with `App `, but only the sync path copies the executable
(the cached path keeps the cached value); on a miss the cached path
forces `installed := false` while the sync path leaves the record
unchanged (hence also not installed for freshly mapped owned games,
which carry `installed := false`). -/
theorem claim_C4_cached_vs_sync_merge (m : String → Option Game) (g : Game) :
    (∀ inst, m g.id = some inst →
        cachedMergeGame m g = { syncMergeGame m g with executable := g.executable }
        ∧ (syncMergeGame m g).installed = true
        ∧ (cachedMergeGame m g).installed = true
        ∧ (syncMergeGame m g).install_path = inst.install_path
        ∧ (cachedMergeGame m g).install_path = inst.install_path
        ∧ (syncMergeGame m g).size_bytes = inst.size_bytes
        ∧ (cachedMergeGame m g).size_bytes = inst.size_bytes
        ∧ (syncMergeGame m g).executable = inst.executable
        ∧ (cachedMergeGame m g).executable = g.executable
        ∧ (syncMergeGame m g).name
            = (if startsWithApp g.name then inst.name else g.name)
        ∧ (cachedMergeGame m g).name
            = (if startsWithApp g.name then inst.name else g.name))
    ∧ (m g.id = none →
        cachedMergeGame m g = { g with installed := false }
        ∧ syncMergeGame m g = g) := by
  constructor
  · intro inst h
    cases hp : startsWithApp g.name <;>
      simp [syncMergeGame, cachedMergeGame, h, hp]
  · intro h
    simp [syncMergeGame, cachedMergeGame, h]

/-- Witness for C4 (amended) at a matching and a missing entry. -/
theorem claim_C4_witness :
    cachedMergeGame
        (installedMapLookup [{ Game.new "440" "TF2" .steam with
            installed := true
            executable := some "/x/hl2.sh" }] .steam)
        (Game.new "440" "TF2" .steam)
      = { syncMergeGame
            (installedMapLookup [{ Game.new "440" "TF2" .steam with
                installed := true
                executable := some "/x/hl2.sh" }] .steam)
            (Game.new "440" "TF2" .steam) with
          executable := (Game.new "440" "TF2" .steam).executable }
    ∧ syncMergeGame (installedMapLookup [] .steam) (Game.new "7" "Lone" .steam)
      = Game.new "7" "Lone" .steam := by
  constructor
  · exact ((claim_C4_cached_vs_sync_merge
      (installedMapLookup [{ Game.new "440" "TF2" .steam with
          installed := true
          executable := some "/x/hl2.sh" }] .steam)
      (Game.new "440" "TF2" .steam)).1
      { Game.new "440" "TF2" .steam with
          installed := true
          executable := some "/x/hl2.sh" } (by decide)).1
  · exact ((claim_C4_cached_vs_sync_merge (installedMapLookup [] .steam)
      (Game.new "7" "Lone" .steam)).2 (by decide)).2

theorem syncMergeGame_id (m : String → Option Game) (g : Game) :
    (syncMergeGame m g).id = g.id := by
  cases h : m g.id <;> simp [syncMergeGame, h]
  split <;> rfl

theorem syncMergeGame_idem (m : String → Option Game) (g : Game) :
    syncMergeGame m (syncMergeGame m g) = syncMergeGame m g := by
  cases h : m g.id with
  | none =>
    have h1 : syncMergeGame m g = g := by simp [syncMergeGame, h]
    rw [h1, h1]
  | some inst =>
    have hid : (syncMergeGame m g).id = g.id := syncMergeGame_id m g
    cases hp : startsWithApp g.name with
    | false =>
      have h1 : syncMergeGame m g = { g with
          installed := true
          install_path := inst.install_path
          executable := inst.executable
          size_bytes := inst.size_bytes } := by
        simp [syncMergeGame, h, hp]
      rw [h1]
      simp [syncMergeGame, h, hp]
    | true =>
      have h1 : syncMergeGame m g = { g with
          name := inst.name
          installed := true
          install_path := inst.install_path
          executable := inst.executable
          size_bytes := inst.size_bytes } := by
        simp [syncMergeGame, h, hp]
      rw [h1]
      cases hq : startsWithApp inst.name <;> simp [syncMergeGame, h, hq]

/-- C6: the ownership merge of `sync_steam_library` is idempotent: with
the installed list fixed, merging the merged output again reproduces it
field for field. -/
theorem claim_C6_merge_idempotent (installed_games owned_games : List Game) :
    sync_steam_merge installed_games (sync_steam_merge installed_games owned_games)
      = sync_steam_merge installed_games owned_games := by
  unfold sync_steam_merge
  rw [List.map_map]
  exact List.map_congr_left (fun g _ => syncMergeGame_idem _ g)

theorem parse_acf_file_installed (pe : String → Bool) (dir content : String)
    (g : Game) (h : parse_acf_file pe dir content = .ok g) : g.installed = true := by
  unfold parse_acf_file at h
  repeat' split at h
  all_goals first
    | (injection h with h; subst h; rfl)
    | injection h

theorem parse_manifest_file_installed (pe : String → Bool)
    (decoded : Except String EpicManifest) (g : Game)
    (h : parse_manifest_file pe decoded = .ok g) : g.installed = true := by
  unfold parse_manifest_file at h
  repeat' split at h
  all_goals first
    | (injection h with h; subst h; rfl)
    | injection h

/-- C5 is refuted at a concrete input: the cached reconciliation path
marks a cache entry with no current local match as not installed but
keeps its cached install path, so a public result carries
`installed = false` together with a set installation field. -/
theorem claim_C5_counterexample :
    cached_steam_merge []
        [{ Game.new "1" "Foo" .steam with installed := true, install_path := some "/games/foo" }]
      = [{ Game.new "1" "Foo" .steam with installed := false, install_path := some "/games/foo" }]
    ∧ ({ Game.new "1" "Foo" .steam with
        installed := false, install_path := some "/games/foo" } : Game).installed = false
    ∧ ({ Game.new "1" "Foo" .steam with
        installed := false, install_path := some "/games/foo" } : Game).install_path ≠ none := by
  exact ⟨by decide, by decide, by decide⟩

/-- C5 (amended): the remote owned-games mapping yields
`installed = false` with every installation-only field unset; both
manifest parsers only ever emit `installed = true` (so the invariant is
vacuous there); and the sync merge preserves the invariant for inputs
satisfying it.  The cached reconciliation path is the exception: its
miss branch forces `installed = false` while retaining the cached
installation fields (see the counterexample). -/
theorem claim_C5_install_fields_invariant
    (resp : Option (List OwnedGame)) (installed_games owned_games : List Game)
    (pe : String → Bool) (dir content : String)
    (decoded : Except String EpicManifest) :
    (∀ g ∈ get_owned_games resp, g.installed = false ∧ noInstallFields g)
    ∧ (∀ g : Game, parse_acf_file pe dir content = .ok g → g.installed = true)
    ∧ (∀ g : Game, parse_manifest_file pe decoded = .ok g → g.installed = true)
    ∧ ((∀ g ∈ owned_games, installInvariant g) →
        ∀ g ∈ sync_steam_merge installed_games owned_games, installInvariant g) := by
  refine ⟨?_, fun g h => parse_acf_file_installed pe dir content g h,
    fun g h => parse_manifest_file_installed pe decoded g h, ?_⟩
  · intro g hg
    unfold get_owned_games at hg
    rcases List.mem_map.mp hg with ⟨og, _, rfl⟩
    refine ⟨rfl, ?_, ?_, ?_, ?_⟩ <;> rfl
  · intro hinv g hg
    unfold sync_steam_merge at hg
    rcases List.mem_map.mp hg with ⟨g0, hg0, rfl⟩
    cases h : installedMapLookup installed_games .steam g0.id with
    | none => simpa [syncMergeGame, h] using hinv g0 hg0
    | some inst =>
      have hi : (syncMergeGame (installedMapLookup installed_games .steam) g0).installed
          = true := by
        cases hp : startsWithApp g0.name <;> simp [syncMergeGame, h, hp]
      intro hf
      rw [hi] at hf
      simp at hf

/-- Witness for C5 (amended) at a concrete owned entry, a concrete Steam
manifest, a concrete Epic manifest, and a one-element merge. -/
theorem claim_C5_witness :
    ((ownedGameToGame { appid := 440 }).installed = false
      ∧ noInstallFields (ownedGameToGame { appid := 440 }))
    ∧ ({ Game.new "440" "TF2" .steam with
          installed := true
          cover_url := some "https://steamcdn-a.akamaihd.net/steam/apps/440/library_600x900.jpg"
          hero_url := some "https://steamcdn-a.akamaihd.net/steam/apps/440/library_hero.jpg"
          icon_url := some "https://steamcdn-a.akamaihd.net/steam/apps/440/header.jpg" } : Game).installed = true
    ∧ installInvariant (syncMergeGame (installedMapLookup [] .steam) (Game.new "7" "Lone" .steam)) := by
  refine ⟨?_, ?_, ?_⟩
  · exact (claim_C5_install_fields_invariant (some [{ appid := 440 }]) [] []
      (fun _ => false) "" "" (.error "")).1 (ownedGameToGame { appid := 440 }) (by
        unfold get_owned_games
        exact List.mem_map.mpr ⟨{ appid := 440 }, by decide, rfl⟩)
  · exact (claim_C5_install_fields_invariant none [] [] (fun _ => false) "/sa"
      "\x22appid\x22 \x22440\x22\n\x22name\x22 \x22TF2\x22" (.error "")).2.1
      { Game.new "440" "TF2" .steam with
          installed := true
          cover_url := some "https://steamcdn-a.akamaihd.net/steam/apps/440/library_600x900.jpg"
          hero_url := some "https://steamcdn-a.akamaihd.net/steam/apps/440/library_hero.jpg"
          icon_url := some "https://steamcdn-a.akamaihd.net/steam/apps/440/header.jpg" }
      (by decide)
  · exact (claim_C5_install_fields_invariant none [] [Game.new "7" "Lone" .steam]
      (fun _ => false) "" "" (.error "")).2.2.2
      (by intro g hg; rcases List.mem_singleton.mp hg with rfl; intro _; exact ⟨rfl, rfl, rfl, rfl⟩)
      (syncMergeGame (installedMapLookup [] .steam) (Game.new "7" "Lone" .steam))
      (List.mem_map.mpr ⟨Game.new "7" "Lone" .steam, List.mem_singleton.mpr rfl, rfl⟩)

theorem splitFirstColon_eq_none_iff (l : List Char) :
    splitFirstColon l = none ↔ ':' ∉ l := by
  induction l with
  | nil => simp [splitFirstColon]
  | cons c rest ih =>
    by_cases hc : c = ':'
    · subst hc
      simp [splitFirstColon]
    · have hmap : (splitFirstColon rest).map (fun p => (c :: p.1, p.2)) = none
          ↔ splitFirstColon rest = none := by
        cases splitFirstColon rest <;> simp
      simp only [splitFirstColon, hc, if_false, List.mem_cons, hmap, ih]
      constructor
      · intro h hm
        rcases hm with hm | hm
        · exact hc hm.symm
        · exact h hm
      · intro h hm
        exact h (Or.inr hm)

theorem splitFirstColon_eq_some (l : List Char) :
    ∀ sid gid, splitFirstColon l = some (sid, gid) →
      l = sid ++ ':' :: gid ∧ ':' ∉ sid := by
  induction l with
  | nil => intro sid gid h; simp [splitFirstColon] at h
  | cons c rest ih =>
    intro sid gid h
    by_cases hc : c = ':'
    · subst hc
      simp only [splitFirstColon, if_true] at h
      simp only [Option.some.injEq, Prod.mk.injEq] at h
      rcases h with ⟨rfl, rfl⟩
      exact ⟨rfl, by simp⟩
    · simp only [splitFirstColon, hc, if_false, Bool.false_eq_true] at h
      rcases hs : splitFirstColon rest with _ | ⟨ps, pg⟩
      · rw [hs] at h
        exact absurd h (by simp)
      · rw [hs] at h
        simp only [Option.map_some', Option.some.injEq, Prod.mk.injEq] at h
        rcases h with ⟨h1, h2⟩
        rcases ih ps pg hs with ⟨he, hn⟩
        subst h2
        constructor
        · rw [← h1, he]
          rfl
        · rw [← h1]
          simp only [List.mem_cons]
          intro hm
          rcases hm with hm | hm
          · exact hc hm.symm
          · exact hn hm

/-- C7: `launch_game` splits on the first colon only (the part before it
is the store id, everything after it the game id); a key without a colon
is a `GameNotFound` error and a well-formed key with an unregistered
store id is a `StoreNotFound` error, both in the not-found category
(differing only in the carried message); otherwise the suffix is
delegated to the adapter's launch. -/
theorem claim_C7_launch_game_dispatch
    (registry : String → Option (String → Except LauncherError Unit))
    (key : String) :
    (splitFirstColon key.data = none →
        launch_game registry key = .error (.GameNotFound key))
    ∧ (splitFirstColon key.data = none ↔ ':' ∉ key.data)
    ∧ (∀ sid gid, splitFirstColon key.data = some (sid, gid) →
        (key.data = sid ++ ':' :: gid ∧ ':' ∉ sid)
        ∧ (registry ⟨sid⟩ = none →
            launch_game registry key = .error (.StoreNotFound ⟨sid⟩))
        ∧ (∀ launch, registry ⟨sid⟩ = some launch →
            launch_game registry key = launch ⟨gid⟩))
    ∧ ((LauncherError.GameNotFound key).isNotFound = true
        ∧ ∀ sid : String, (LauncherError.StoreNotFound sid).isNotFound = true) := by
  refine ⟨?_, splitFirstColon_eq_none_iff key.data, ?_, rfl, fun _ => rfl⟩
  · intro h
    unfold launch_game
    rw [h]
  · intro sid gid h
    refine ⟨splitFirstColon_eq_some key.data sid gid h, ?_, ?_⟩
    · intro hr
      unfold launch_game
      simp only [h, hr]
    · intro launch hr
      unfold launch_game
      simp only [h, hr]

/-- Witness for C7: a registry holding only `mock`; `badkey` is
`GameNotFound`, `nostore:123` is `StoreNotFound`, `mock:123` delegates
and succeeds. -/
theorem claim_C7_witness :
    launch_game (fun s => if s = "mock" then some (fun _ => .ok ()) else none) "badkey"
      = .error (.GameNotFound "badkey")
    ∧ launch_game (fun s => if s = "mock" then some (fun _ => .ok ()) else none) "nostore:123"
      = .error (.StoreNotFound "nostore")
    ∧ launch_game (fun s => if s = "mock" then some (fun _ => .ok ()) else none) "mock:123"
      = .ok ()
    ∧ (LauncherError.GameNotFound "badkey").isNotFound = true
    ∧ (LauncherError.StoreNotFound "nostore").isNotFound = true := by
  refine ⟨?_, ?_, ?_, ?_, ?_⟩
  · exact (claim_C7_launch_game_dispatch
      (fun s => if s = "mock" then some (fun _ => .ok ()) else none) "badkey").1
      (by decide)
  · exact (((claim_C7_launch_game_dispatch
      (fun s => if s = "mock" then some (fun _ => .ok ()) else none) "nostore:123").2.2.1
      "nostore".data "123".data (by decide)).2.1 rfl)
  · exact (((claim_C7_launch_game_dispatch
      (fun s => if s = "mock" then some (fun _ => .ok ()) else none) "mock:123").2.2.1
      "mock".data "123".data (by decide)).2.2 (fun _ => .ok ()) rfl)
  · exact (claim_C7_launch_game_dispatch
      (fun s => if s = "mock" then some (fun _ => .ok ()) else none) "badkey").2.2.2.1
  · exact (claim_C7_launch_game_dispatch
      (fun s => if s = "mock" then some (fun _ => .ok ()) else none) "badkey").2.2.2.2 "nostore"

theorem vdfGet_eq_none_iff (content k : String) :
    vdfGet content k = none ↔ vdfHasKey content k = false := by
  unfold vdfGet vdfHasKey
  rw [Option.map_eq_none', List.find?_eq_none, List.any_eq_false]
  constructor
  · intro h p hp
    exact h p (List.mem_reverse.mpr hp)
  · intro h p hp
    exact h p (List.mem_reverse.mp hp)

/-- C8: `parse_acf_file` reports a parse failure exactly when the
manifest content defines no `appid` key or no `name` key; key matching
is case-insensitive because every stored key is the lowercased raw key;
and a failing file is skipped by the directory scan, which keeps the
games of the remaining files. -/
theorem claim_C8_steam_manifest_parse_failure (pe : String → Bool)
    (dir content : String) (pre post : List String) :
    (isParseFailure (parse_acf_file pe dir content) = true
      ↔ (vdfHasKey content "appid" = false ∨ vdfHasKey content "name" = false))
    ∧ (∀ (line : List Char) (k v : String), vdfLineEntry line = some (k, v) →
        k = ⟨((splitOnChar '\x22' (trimChars line)).getD 1 []).map asciiLowerChar⟩)
    ∧ (isParseFailure (parse_acf_file pe dir content) = true →
        scan_steam_contents pe dir (pre ++ content :: post)
          = scan_steam_contents pe dir pre ++ scan_steam_contents pe dir post) := by
  refine ⟨?_, ?_, ?_⟩
  · rcases h1 : vdfGet content "appid" with _ | a
    · simp [parse_acf_file, h1, isParseFailure, (vdfGet_eq_none_iff content "appid").mp h1]
    · rcases h2 : vdfGet content "name" with _ | n
      · simp [parse_acf_file, h1, h2, isParseFailure,
          (vdfGet_eq_none_iff content "name").mp h2]
      · have hA : vdfHasKey content "appid" = true := by
          rcases hv : vdfHasKey content "appid"
          · exact absurd ((vdfGet_eq_none_iff content "appid").mpr hv) (by simp [h1])
          · rfl
        have hB : vdfHasKey content "name" = true := by
          rcases hv : vdfHasKey content "name"
          · exact absurd ((vdfGet_eq_none_iff content "name").mpr hv) (by simp [h2])
          · rfl
        simp [parse_acf_file, h1, h2, isParseFailure, hA, hB]
  · intro line k v h
    unfold vdfLineEntry at h
    try simp only [] at h
    repeat' split at h
    all_goals first
      | (simp only [Option.some.injEq, Prod.mk.injEq] at h
         exact h.1.symm)
      | injection h
  · intro hf
    unfold scan_steam_contents
    rw [List.filterMap_append]
    have hnone : (parse_acf_file pe dir content).toOption = none := by
      rcases hp : parse_acf_file pe dir content with e | g
      · rfl
      · rw [hp] at hf
        simp [isParseFailure] at hf
    simp [List.filterMap_cons, hnone]

/-- Witness for C8: `AppId`/`NAME` capitalisation parses fine (keys are
lowercased), a manifest without a `name` key is a parse failure, and the
scan of good-bad-good keeps the two good files. -/
theorem claim_C8_witness :
    isParseFailure (parse_acf_file (fun _ => false) "/sa"
        "\x22AppId\x22 \x22440\x22\n\x22NAME\x22 \x22Team Fortress 2\x22") = false
    ∧ vdfHasKey "\x22AppId\x22 \x22440\x22\n\x22NAME\x22 \x22Team Fortress 2\x22" "appid" = true
    ∧ isParseFailure (parse_acf_file (fun _ => false) "/sa" "\x22appid\x22 \x22440\x22") = true
    ∧ scan_steam_contents (fun _ => false) "/sa"
        (["\x22AppId\x22 \x22440\x22\n\x22NAME\x22 \x22Team Fortress 2\x22"]
          ++ "\x22appid\x22 \x22440\x22"
          :: ["\x22AppId\x22 \x22440\x22\n\x22NAME\x22 \x22Team Fortress 2\x22"])
      = scan_steam_contents (fun _ => false) "/sa"
          ["\x22AppId\x22 \x22440\x22\n\x22NAME\x22 \x22Team Fortress 2\x22"]
        ++ scan_steam_contents (fun _ => false) "/sa"
          ["\x22AppId\x22 \x22440\x22\n\x22NAME\x22 \x22Team Fortress 2\x22"] := by
  have hbad : isParseFailure (parse_acf_file (fun _ => false) "/sa"
      "\x22appid\x22 \x22440\x22") = true :=
    (claim_C8_steam_manifest_parse_failure (fun _ => false) "/sa"
      "\x22appid\x22 \x22440\x22" [] []).1.mpr (Or.inr (by decide))
  refine ⟨by decide, by decide, hbad, ?_⟩
  exact (claim_C8_steam_manifest_parse_failure (fun _ => false) "/sa"
    "\x22appid\x22 \x22440\x22"
    ["\x22AppId\x22 \x22440\x22\n\x22NAME\x22 \x22Team Fortress 2\x22"]
    ["\x22AppId\x22 \x22440\x22\n\x22NAME\x22 \x22Team Fortress 2\x22"]).2.2 hbad

/-- C9: a decoded Epic manifest flagged `bIsIncompleteInstall` is a
parse failure even with every required field present, and the directory
scan succeeds with exactly that file excluded. -/
theorem claim_C9_epic_incomplete_manifest (pe : String → Bool)
    (m : EpicManifest) (pre post : List (Except String EpicManifest))
    (h : m.is_incomplete_install = true) :
    parse_manifest_file pe (.ok m)
      = .error (.ParseError "Game installation is incomplete")
    ∧ isParseFailure (parse_manifest_file pe (.ok m)) = true
    ∧ scan_epic_manifests pe (pre ++ .ok m :: post)
        = scan_epic_manifests pe pre ++ scan_epic_manifests pe post := by
  have h1 : parse_manifest_file pe (.ok m)
      = .error (.ParseError "Game installation is incomplete") := by
    unfold parse_manifest_file
    simp [h]
  refine ⟨h1, by rw [h1]; rfl, ?_⟩
  unfold scan_epic_manifests
  rw [List.filterMap_append]
  simp [List.filterMap_cons, h1, Except.toOption]

/-- Witness for C9: an otherwise complete manifest with the incomplete
flag set is rejected, and a scan of good-bad-good keeps the two good
manifests. -/
theorem claim_C9_witness :
    parse_manifest_file (fun _ => true)
        (.ok ⟨"Fort", "Fortnite", "/epic/fn", "fn.bin", none, true, false, none⟩)
      = .error (.ParseError "Game installation is incomplete")
    ∧ scan_epic_manifests (fun _ => true)
        ([.ok ⟨"Good", "Good Game", "/epic/gg", "gg.bin", none, false, false, none⟩]
          ++ .ok ⟨"Fort", "Fortnite", "/epic/fn", "fn.bin", none, true, false, none⟩
          :: [.ok ⟨"Good", "Good Game", "/epic/gg", "gg.bin", none, false, false, none⟩])
      = scan_epic_manifests (fun _ => true)
          [.ok ⟨"Good", "Good Game", "/epic/gg", "gg.bin", none, false, false, none⟩]
        ++ scan_epic_manifests (fun _ => true)
          [.ok ⟨"Good", "Good Game", "/epic/gg", "gg.bin", none, false, false, none⟩] := by
  have h := claim_C9_epic_incomplete_manifest (fun _ => true)
    ⟨"Fort", "Fortnite", "/epic/fn", "fn.bin", none, true, false, none⟩
    [.ok ⟨"Good", "Good Game", "/epic/gg", "gg.bin", none, false, false, none⟩]
    [.ok ⟨"Good", "Good Game", "/epic/gg", "gg.bin", none, false, false, none⟩]
    rfl
  exact ⟨h.1, h.2.2⟩

/-- C10 is refuted at a concrete input: SQLite's LIKE treats `_` as a
single-character wildcard, so the secondary query also keeps the row
`releaseKey = "gogabc"`, which does not carry the literal `gog_`
namespace, and its full key becomes the game id. -/
theorem claim_C10_counterexample :
    query_installed_games
        { installed_base_products := some []
          library_releases := some [("gogabc", "Bar")]
          game_piece_title := fun _ => none
          product_config := none }
      = [{ Game.new "gogabc" "Bar" .gog with installed := true }]
    ∧ "gogabc".data.take 4 ≠ "gog_".data := by
  exact ⟨by decide, by decide⟩

/-- C10 (amended): the secondary LibraryReleases strategy is consulted
exactly when the primary InstalledBaseProducts strategy yields zero
games (never additively); the secondary path keeps exactly the rows
whose releaseKey matches SQL `LIKE` with pattern `gog_%` — `gog` matched
ASCII-case-insensitively followed by at least one arbitrary character —
and uses as id the key with a literal `gog_` stripped when present,
otherwise the whole key; the claim's example database still yields
exactly one game `456`/`Foo`/installed. -/
theorem claim_C10_gog_fallback (db : GogDb) :
    (query_installed_base_products db ≠ [] →
        query_installed_games db = query_installed_base_products db)
    ∧ (query_installed_base_products db = [] →
        query_installed_games db = query_library_releases db)
    ∧ (∀ rows, db.library_releases = some rows →
        ∀ g, g ∈ query_library_releases db ↔
          ∃ r ∈ rows, matchesGogLikePattern r.1 = true ∧ g = releaseToGame r)
    ∧ (∀ rest : List Char, gogStripKey ⟨'g' :: 'o' :: 'g' :: '_' :: rest⟩ = ⟨rest⟩) := by
  refine ⟨?_, ?_, ?_, fun rest => rfl⟩
  · intro hne
    unfold query_installed_games
    have hie : (query_installed_base_products db).isEmpty = false := by
      rcases hq : query_installed_base_products db with _ | ⟨x, xs⟩
      · exact absurd hq hne
      · rfl
    simp [hie]
  · intro he
    unfold query_installed_games
    rw [he]
    simp
  · intro rows hr g
    unfold query_library_releases
    rw [hr]
    constructor
    · intro hg
      rcases List.mem_map.mp hg with ⟨r, hrf, rfl⟩
      rcases List.mem_filter.mp hrf with ⟨hrm, hp⟩
      exact ⟨r, hrm, by simpa using hp, rfl⟩
    · rintro ⟨r, hrm, hp, rfl⟩
      exact List.mem_map.mpr ⟨r, List.mem_filter.mpr ⟨hrm, by simpa using hp⟩, rfl⟩

/-- Witness for C10 (amended): the spec's example database — empty
InstalledBaseProducts, one `gog_456`/`Foo` release row — yields exactly
one installed game with id `456` and name `Foo`. -/
theorem claim_C10_witness :
    query_installed_games
        { installed_base_products := some []
          library_releases := some [("gog_456", "Foo")]
          game_piece_title := fun _ => none
          product_config := none }
      = [{ Game.new "456" "Foo" .gog with installed := true }]
    ∧ gogStripKey "gog_456" = "456"
    ∧ matchesGogLikePattern "gog_456" = true
    ∧ matchesGogLikePattern "steam_123" = false := by
  refine ⟨?_, ?_, by decide, by decide⟩
  · have h := (claim_C10_gog_fallback
      { installed_base_products := some []
        library_releases := some [("gog_456", "Foo")]
        game_piece_title := fun _ => none
        product_config := none }).2.1 (by decide)
    exact h.trans (by decide)
  · exact (claim_C10_gog_fallback
      { installed_base_products := some []
        library_releases := some [("gog_456", "Foo")]
        game_piece_title := fun _ => none
        product_config := none }).2.2.2 "456".data
